import Mathlib

/-!
Verification of the pram messaging library (Go, github.com/stevecallear/pram)
against its natural-language specification.

The development shallow-embeds the relevant source files:
- `src/message.go` (envelope codec: Metadata, Message, MessageName, Marshal,
  Unmarshal, wrap, unwrap, WithCorrelationID),
- `src/registry.go` (Registry.TopicARN, Registry.QueueURL, default options,
  WithPrefixNaming),
- `src/internal/store/store.go` (InMemoryStore get-or-set),
- the internal aws service (Service.EnsureTopic, Service.EnsureSubscription,
  SNSAccessPolicy, SQSAccessPolicy, SQSRedrivePolicy, accountIDFromARN),
- `src/subscriber.go` (Subscriber.Subscribe, handleMessage).

Nondeterministic inputs of the Go code (uuid.NewString(), time.Now()) are
passed as explicit parameters; the AWS clients are modelled as deterministic
response functions, and every broker call issued is recorded in a trace so
that call-order and call-count properties can be stated.
-/

namespace Pram

/-- An error, modelled as its message string (Go `error`). -/
abbrev Err := String

/-! ## Envelope codec (src/message.go) -/

/-- Message metadata (`Metadata` in src/message.go).  The Go field `Type` is
named `TypeName` here because `Type` is reserved in Lean; `Timestamp`
(a `time.Time` UTC instant) is modelled as an integer instant. -/
structure Metadata where
  ID : String
  TypeName : String
  CorrelationID : String
  Timestamp : Int
deriving Repr, DecidableEq

/-- A protobuf message value: its fully-qualified descriptor name
(`m.ProtoReflect().Descriptor().FullName()`) plus opaque contents. -/
structure ProtoMsg where
  fullName : String
  contents : Nat
deriving Repr, DecidableEq

/-- An `anypb.Any` box: the boxed payload carrying its own type tag. -/
structure AnyBox where
  typeName : String
  contents : Nat
deriving Repr, DecidableEq

/-- `anypb.New(m)`: box a message together with its type tag.  (The Go call
can only fail for unmarshalable messages; payloads are modelled as always
boxable.) -/
def anypbNew (m : ProtoMsg) : AnyBox :=
  { typeName := m.fullName, contents := m.contents }

/-- `any.UnmarshalTo(m)`: succeeds iff the boxed type tag matches the
prototype's message type, yielding the boxed payload. -/
def unmarshalTo (a : AnyBox) (proto : ProtoMsg) : Except Err ProtoMsg :=
  if a.typeName = proto.fullName then
    .ok { fullName := a.typeName, contents := a.contents }
  else
    .error ("mismatched message type: " ++ a.typeName)

/-- The wire envelope `prampb.Message`: id, type, correlation_id, timestamp
and the boxed body. -/
structure PBMessage where
  id : String
  typeName : String
  correlationId : String
  timestamp : Int
  body : AnyBox
deriving Repr, DecidableEq

/-- A decoded message (`Message` in src/message.go): payload plus embedded
metadata. -/
structure Message where
  Payload : ProtoMsg
  md : Metadata
deriving Repr, DecidableEq

/-- `for _, opt := range optFns { opt(&md) }`: apply the metadata override
functions in order. -/
def applyOpts (optFns : List (Metadata → Metadata)) (md : Metadata) : Metadata :=
  optFns.foldl (fun acc f => f acc) md

/-- `wrap` (src/message.go:65): build the wire envelope.  `freshID` stands for
`uuid.NewString()` and `now` for `time.Now().UTC()`, passed explicitly. -/
def wrap (m : ProtoMsg) (optFns : List (Metadata → Metadata))
    (freshID : String) (now : Int) : PBMessage :=
  let md := applyOpts optFns
    { ID := freshID, TypeName := m.fullName, CorrelationID := "", Timestamp := now }
  { id := md.ID, typeName := md.TypeName, correlationId := md.CorrelationID,
    timestamp := md.Timestamp, body := anypbNew m }

/-- Serialized envelope bytes.  `proto.Marshal`/`proto.Unmarshal` of the wire
struct belong to the protobuf library, which round-trips structured messages,
so the byte encoding is identified with the structured wire message. -/
abbrev Bytes := PBMessage

/-- `Marshal` (src/message.go:38): wrap then serialize. -/
def Marshal (m : ProtoMsg) (optFns : List (Metadata → Metadata))
    (freshID : String) (now : Int) : Bytes :=
  wrap m optFns freshID now

/-- `unwrap` (src/message.go:90): extract the metadata verbatim and unbox the
payload into the caller-supplied prototype. -/
def unwrap (wrapped : PBMessage) (m : ProtoMsg) : Except Err Message :=
  let md : Metadata :=
    { ID := wrapped.id, TypeName := wrapped.typeName,
      CorrelationID := wrapped.correlationId, Timestamp := wrapped.timestamp }
  match unmarshalTo wrapped.body m with
  | .error e => .error e
  | .ok p => .ok { Payload := p, md := md }

/-- `Unmarshal` (src/message.go:48): parse the wire envelope then unwrap. -/
def Unmarshal (b : Bytes) (m : ProtoMsg) : Except Err Message :=
  unwrap b m

/-- `WithCorrelationID` (src/message.go:59). -/
def WithCorrelationID (id : String) : Metadata → Metadata :=
  fun md => { md with CorrelationID := id }

/-! ## Message naming (src/message.go MessageName) -/

/-- `strings.ReplaceAll(s, old, new)` on rune lists: replace non-overlapping
occurrences of `pat` left to right (no-op for the empty pattern, which the
source never uses). -/
def replaceAll (pat rep : List Char) : List Char → List Char
  | [] => []
  | c :: cs =>
    if !pat.isEmpty && pat.isPrefixOf (c :: cs) then
      rep ++ replaceAll pat rep (List.drop (pat.length - 1) cs)
    else
      c :: replaceAll pat rep cs
termination_by l => l.length
decreasing_by
  · simp only [List.length_drop, List.length_cons]
    omega
  · simp only [List.length_cons]
    omega

/-- `MessageName` (src/message.go:33): the fully-qualified name with `.`
replaced by `-`. -/
def MessageName (m : ProtoMsg) : String :=
  ⟨replaceAll ['.'] ['-'] m.fullName.data⟩

/-! ## Access policies (internal aws package) -/

/-- `strings.Split` on a single separator character. -/
def splitOnChar (sep : Char) : List Char → List (List Char)
  | [] => [[]]
  | c :: cs =>
    match splitOnChar sep cs with
    | [] => [[]]
    | g :: gs => if c = sep then [] :: g :: gs else (c :: g) :: gs

/-- `accountIDFromARN`: the fifth `:`-separated element of the ARN, or an
error for a malformed ARN. -/
def accountIDFromARN (arn : String) : Except Err String :=
  let els := splitOnChar ':' arn.data
  if els.length < 5 then .error ("invalid arn: " ++ arn)
  else .ok ⟨els.getD 4 []⟩

/-- The SNS topic access policy, by its template parameters (the rendered
JSON text and the random statement ids do not affect any contract here). -/
structure SNSPolicy where
  topicARN : String
  accountID : String
deriving Repr, DecidableEq

/-- The SQS queue access policy (allow the topic to send), by its template
parameters. -/
structure SQSPolicy where
  topicARN : String
  queueARN : String
deriving Repr, DecidableEq

/-- The SQS redrive policy, by its template parameters. -/
structure RedrivePolicy where
  deadLetterTargetARN : String
  maxReceiveCount : Nat
deriving Repr, DecidableEq

/-- `SNSAccessPolicy(topicARN)`: fails iff the account id cannot be read from
the ARN. -/
def SNSAccessPolicy (topicARN : String) : Except Err SNSPolicy :=
  match accountIDFromARN topicARN with
  | .error e => .error e
  | .ok aid => .ok { topicARN := topicARN, accountID := aid }

/-- `SQSAccessPolicy(topicARN, queueARN)`: template rendering on plain strings
cannot fail. -/
def SQSAccessPolicy (topicARN queueARN : String) : SQSPolicy :=
  { topicARN := topicARN, queueARN := queueARN }

/-- `SQSRedrivePolicy(errorQueueARN, maxReceiveCount)`. -/
def SQSRedrivePolicy (errorQueueARN : String) (maxReceiveCount : Nat) : RedrivePolicy :=
  { deadLetterTargetARN := errorQueueARN, maxReceiveCount := maxReceiveCount }

/-! ## Broker model and the aws Service (internal aws package) -/

/-- One call issued to the SNS/SQS clients, with its request data. -/
inductive BrokerCall where
  | createTopic (topicName : String)
  | setTopicAttributes (topicARN : String) (policy : SNSPolicy)
  | createQueue (queueName : String)
  | getQueueAttributes (queueURL : String)
  | setQueueAttributes (queueURL : String) (policy : SQSPolicy) (redrive : RedrivePolicy)
  | subscribeQueue (topicARN : String) (endpoint : String)
deriving Repr, DecidableEq

/-- The SNS/SQS clients, modelled as deterministic response functions:
`createTopic` yields the topic ARN, `createQueue` the queue URL,
`getQueueAttributes` the queue ARN for a queue URL, and `subscribeQueue` the
subscription ARN. -/
structure Broker where
  createTopic : String → Except Err String
  setTopicAttributes : String → SNSPolicy → Except Err Unit
  createQueue : String → Except Err String
  getQueueAttributes : String → Except Err String
  setQueueAttributes : String → SQSPolicy → RedrivePolicy → Except Err Unit
  subscribeQueue : String → String → Except Err String

/-- `Service.EnsureTopic`: create the topic, generate the access policy, set
it; returns the topic ARN together with the ordered list of broker calls
issued. -/
def Service.EnsureTopic (bk : Broker) (topicName : String) :
    Except Err String × List BrokerCall :=
  match bk.createTopic topicName with
  | .error e => (.error e, [.createTopic topicName])
  | .ok ta =>
    match SNSAccessPolicy ta with
    | .error e => (.error e, [.createTopic topicName])
    | .ok ap =>
      match bk.setTopicAttributes ta ap with
      | .error e => (.error e, [.createTopic topicName, .setTopicAttributes ta ap])
      | .ok _ => (.ok ta, [.createTopic topicName, .setTopicAttributes ta ap])

/-- `Service.createQueue`: create-if-absent the queue, read back its ARN;
returns (queue URL, queue ARN) and the calls issued. -/
def Service.createQueue (bk : Broker) (queueName : String) :
    Except Err (String × String) × List BrokerCall :=
  match bk.createQueue queueName with
  | .error e => (.error e, [.createQueue queueName])
  | .ok qu =>
    match bk.getQueueAttributes qu with
    | .error e => (.error e, [.createQueue queueName, .getQueueAttributes qu])
    | .ok qa => (.ok (qu, qa), [.createQueue queueName, .getQueueAttributes qu])

/-- `Service.EnsureSubscription`: error queue, main queue, attributes (access
policy and redrive policy), topic subscription, in source order; returns the
main queue URL and the calls issued. -/
def Service.EnsureSubscription (bk : Broker) (topicARN queueName errorQueueName : String)
    (maxReceiveCount : Nat) : Except Err String × List BrokerCall :=
  match Service.createQueue bk errorQueueName with
  | (.error e, tr1) => (.error e, tr1)
  | (.ok (_, eqa), tr1) =>
    match Service.createQueue bk queueName with
    | (.error e, tr2) => (.error e, tr1 ++ tr2)
    | (.ok (mqu, mqa), tr2) =>
      let ap := SQSAccessPolicy topicARN mqa
      let rp := SQSRedrivePolicy eqa maxReceiveCount
      match bk.setQueueAttributes mqu ap rp with
      | .error e => (.error e, tr1 ++ tr2 ++ [.setQueueAttributes mqu ap rp])
      | .ok _ =>
        match bk.subscribeQueue topicARN mqa with
        | .error e =>
          (.error e, tr1 ++ tr2 ++ [.setQueueAttributes mqu ap rp, .subscribeQueue topicARN mqa])
        | .ok _ =>
          (.ok mqu, tr1 ++ tr2 ++ [.setQueueAttributes mqu ap rp, .subscribeQueue topicARN mqa])

/-! ## Resource store (src/internal/store/store.go) and registry
(src/registry.go) -/

/-- The in-memory store contents: a key-value map, modelled as an association
list where an insert shadows earlier entries (as a Go map overwrite does). -/
abbrev Store := List (String × String)

/-- `InMemoryStore.getOrSet`: look the key up; on a hit return the cached
value without invoking `fn`; on a miss invoke `fn`, cache its value on
success and cache nothing on failure.  The broker calls made by `fn` are
surfaced in the trace. -/
def getOrSet (s : Store) (key : String)
    (fn : Unit → Except Err String × List BrokerCall) :
    Except Err String × Store × List BrokerCall :=
  match s.lookup key with
  | some v => (.ok v, s, [])
  | none =>
    match fn () with
    | (.error e, tr) => (.error e, s, tr)
    | (.ok v, tr) => (.ok v, (key, v) :: s, tr)

/-- The registry's naming configuration (`RegistryOptions` with
`TopicOptions`/`QueueOptions` flattened; the store is passed explicitly). -/
structure RegistryOptions where
  topicNameFn : ProtoMsg → String
  queueNameFn : ProtoMsg → String
  errorNameFn : ProtoMsg → String
  maxReceiveCount : Nat

/-- `defaultRegistryOptions` (src/registry.go:48). -/
def defaultRegistryOptions : RegistryOptions where
  topicNameFn := fun m => MessageName m
  queueNameFn := fun m => MessageName m
  errorNameFn := fun m => MessageName m ++ "_error"
  maxReceiveCount := 5

/-- `WithPrefixNaming(stage, service)` (src/registry.go:144), applied to an
options value. -/
def WithPrefixNaming (stage service : String) (o : RegistryOptions) : RegistryOptions :=
  { o with
    topicNameFn := fun m => stage ++ "-" ++ MessageName m
    queueNameFn := fun m => stage ++ "-" ++ service ++ "-" ++ MessageName m
    errorNameFn := fun m => stage ++ "-" ++ service ++ "-" ++ MessageName m ++ "_error" }

/-- `Registry.TopicARN` (src/registry.go:85): get-or-set under
`topic:<topicName>`, provisioning through `Service.EnsureTopic` on a miss. -/
def Registry.TopicARN (bk : Broker) (o : RegistryOptions) (m : ProtoMsg) (s : Store) :
    Except Err String × Store × List BrokerCall :=
  let tn := o.topicNameFn m
  getOrSet s ("topic:" ++ tn) (fun _ => Service.EnsureTopic bk tn)

/-- `Registry.QueueURL` (src/registry.go:100): resolve the topic first, then
get-or-set under `queue:<queueName>`, provisioning through
`Service.EnsureSubscription` on a miss. -/
def Registry.QueueURL (bk : Broker) (o : RegistryOptions) (m : ProtoMsg) (s : Store) :
    Except Err String × Store × List BrokerCall :=
  let tn := o.topicNameFn m
  match getOrSet s ("topic:" ++ tn) (fun _ => Service.EnsureTopic bk tn) with
  | (.error e, s1, tr1) => (.error e, s1, tr1)
  | (.ok ta, s1, tr1) =>
    let qn := o.queueNameFn m
    match getOrSet s1 ("queue:" ++ qn)
        (fun _ => Service.EnsureSubscription bk ta qn (o.errorNameFn m) o.maxReceiveCount) with
    | (r, s2, tr2) => (r, s2, tr1 ++ tr2)

/-! ## Interleaved executions of `getOrSet` (src/internal/store/store.go)

`InMemoryStore.getOrSet` performs three observable actions: the `get` (under
`mu.RLock`), the provisioning call `fn()` (outside any lock), and the `set`
(under `mu.Lock`).  The mutex makes `get` and `set` individually atomic, so a
concurrent execution of two `getOrSet` calls on the shared store is an
interleaving of those atomic steps. -/

/-- The control state of one thread running `getOrSet`. -/
inductive TState where
  | start
  | needCall
  | needSet (v : String)
  | stopped (r : Except Err String)
deriving Repr

/-- One atomic step of a thread running `getOrSet key` whose provisioning
call returns `fnRes`.  Yields the new thread state, the new store, and the
number of provisioning calls made by the step (0 or 1). -/
def stepThread (key : String) (fnRes : Except Err String) (s : Store) :
    TState → TState × Store × Nat
  | .start =>
    match s.lookup key with
    | some v => (.stopped (.ok v), s, 0)
    | none => (.needCall, s, 0)
  | .needCall =>
    match fnRes with
    | .error e => (.stopped (.error e), s, 1)
    | .ok v => (.needSet v, s, 1)
  | .needSet v => (.stopped (.ok v), (key, v) :: s, 0)
  | .stopped r => (.stopped r, s, 0)

/-- Run two threads, both executing `getOrSet key` on the shared store, under
a schedule (`true` steps thread one, `false` steps thread two).  Returns the
final store, both thread states, and each thread's provisioning-call
count. -/
def runSched (key : String) (fn1 fn2 : Except Err String) :
    List Bool → Store → TState → TState → Nat → Nat →
    Store × TState × TState × Nat × Nat
  | [], s, t1, t2, c1, c2 => (s, t1, t2, c1, c2)
  | b :: rest, s, t1, t2, c1, c2 =>
    if b then
      match stepThread key fn1 s t1 with
      | (t1n, sn, d) => runSched key fn1 fn2 rest sn t1n t2 (c1 + d) c2
    else
      match stepThread key fn2 s t2 with
      | (t2n, sn, d) => runSched key fn1 fn2 rest sn t1 t2n c1 (c2 + d)

/-- Total provisioning calls of a two-thread run from the initial states. -/
def totalCalls (key : String) (fn1 fn2 : Except Err String) (sched : List Bool)
    (s : Store) : Nat :=
  let r := runSched key fn1 fn2 sched s .start .start 0 0
  r.2.2.2.1 + r.2.2.2.2

/-! ## Subscriber (src/subscriber.go) -/

/-- A raw SQS transport message (`types.Message`): id, textual body and
receipt handle. -/
structure SQSMessage where
  messageId : String
  body : String
  receiptHandle : String
deriving Repr, DecidableEq

/-- A message handler (`Handler`): the prototype returned by `Message()` and
the `Handle` function. -/
structure Handler where
  proto : ProtoMsg
  handle : ProtoMsg → Metadata → Except Err Unit

/-- The observable actions of the subscriber loop, in order of issue. -/
inductive SubEvent where
  | receiveCall (queueURL : String)
  | handlerReturn (messageId : String)
  | deleteCall (queueURL : String) (receiptHandle : String)
deriving Repr, DecidableEq

/-- `Subscriber.handleMessage` (src/subscriber.go:133).  `extractB64` stands
for the gjson `Message`-field extraction plus base64 decoding of the
transport body (external libraries); the resulting bytes then go through
`Unmarshal` from the codec above.  `deleteRes` gives the broker's response to
`DeleteMessage` by receipt handle.  Returns the error result together with
the ordered events. -/
def handleMessage (extractB64 : String → Except Err Bytes)
    (deleteRes : String → Except Err Unit) (h : Handler) (queueURL : String)
    (m : SQSMessage) : Except Err Unit × List SubEvent :=
  match extractB64 m.body with
  | .error e => (.error e, [])
  | .ok b =>
    match Unmarshal b h.proto with
    | .error e => (.error e, [])
    | .ok dm =>
      match h.handle dm.Payload dm.md with
      | .error e => (.error e, [.handlerReturn m.messageId])
      | .ok _ =>
        match deleteRes m.receiptHandle with
        | .error e =>
          (.error e, [.handlerReturn m.messageId, .deleteCall queueURL m.receiptHandle])
        | .ok _ =>
          (.ok (), [.handlerReturn m.messageId, .deleteCall queueURL m.receiptHandle])

/-- The per-message goroutine body: a handling error is passed to the error
sink (`s.errorFn`), success sinks nothing. -/
def sinkOf : Except Err Unit → List Err
  | .error e => [e]
  | .ok _ => []

/-- All messages of one receive batch, each handled by its own task; the
events and sunk errors of the batch. -/
def handleBatch (extractB64 : String → Except Err Bytes)
    (deleteRes : String → Except Err Unit) (h : Handler) (queueURL : String) :
    List SQSMessage → List SubEvent × List Err
  | [] => ([], [])
  | m :: ms =>
    let r := handleMessage extractB64 deleteRes h queueURL m
    let rest := handleBatch extractB64 deleteRes h queueURL ms
    (r.2 ++ rest.1, sinkOf r.1 ++ rest.2)

/-- The polling loop of `Subscribe`: one entry of `ticks` per receive-interval
tick, holding the broker's response to that tick's `ReceiveMessage`; the loop
ends when the context is cancelled (the end of `ticks`).  A receive failure
is sunk and polling continues; messages of a successful batch are dispatched
and their results drained before the surrounding `Subscribe` returns. -/
def subscribeLoop (extractB64 : String → Except Err Bytes)
    (deleteRes : String → Except Err Unit) (h : Handler) (queueURL : String) :
    List (Except Err (List SQSMessage)) → List SubEvent × List Err
  | [] => ([], [])
  | t :: rest =>
    let r := subscribeLoop extractB64 deleteRes h queueURL rest
    match t with
    | .error e => (.receiveCall queueURL :: r.1, e :: r.2)
    | .ok msgs =>
      let b := handleBatch extractB64 deleteRes h queueURL msgs
      (.receiveCall queueURL :: (b.1 ++ r.1), b.2 ++ r.2)

/-- `Subscriber.Subscribe` (src/subscriber.go:77): resolve the queue URL once;
on failure return the error with no polling; otherwise poll until
cancellation, wait for the loop and all in-flight handling tasks
(`wg.Wait()`), and return nil.  The result is the returned value, the events
issued, and the errors passed to the sink. -/
def Subscribe (extractB64 : String → Except Err Bytes)
    (deleteRes : String → Except Err Unit) (h : Handler)
    (resolveRes : Except Err String) (ticks : List (Except Err (List SQSMessage))) :
    Except Err Unit × List SubEvent × List Err :=
  match resolveRes with
  | .error e => (.error e, [], [])
  | .ok q => (.ok (), subscribeLoop extractB64 deleteRes h q ticks)

/-! ## Concrete fixtures used by the witnesses -/

/-- A demonstration payload type. -/
def demoMsg : ProtoMsg := { fullName := "my.package.MessageName", contents := 7 }

/-- A broker answering every call successfully with well-formed addresses. -/
def demoBroker : Broker where
  createTopic := fun tn => .ok ("arn:aws:sns:eu:111:" ++ tn)
  setTopicAttributes := fun _ _ => .ok ()
  createQueue := fun qn => .ok ("https://sqs/" ++ qn)
  getQueueAttributes := fun qu => .ok ("arn:q:" ++ qu)
  setQueueAttributes := fun _ _ _ => .ok ()
  subscribeQueue := fun _ _ => .ok "arn:sub:1"

/-- A broker whose queue creation fails. -/
def demoBrokerQueueFail : Broker :=
  { demoBroker with createQueue := fun _ => .error "queue error" }

/-- Simple naming options with constant names. -/
def demoOpts : RegistryOptions where
  topicNameFn := fun _ => "T"
  queueNameFn := fun _ => "Q"
  errorNameFn := fun _ => "Q_error"
  maxReceiveCount := 5

/-- A broker whose topic creation fails. -/
def demoBrokerTopicFail : Broker :=
  { demoBroker with createTopic := fun _ => .error "topic error" }

/-- A metadata override that touches only the correlation id (the generated
ID, Type and Timestamp fields are left alone). -/
def preservesGenerated (f : Metadata → Metadata) : Prop :=
  ∀ md, (f md).ID = md.ID ∧ (f md).TypeName = md.TypeName ∧
    (f md).Timestamp = md.Timestamp

/-- The number of provisioning calls a thread in the given state can still
make. -/
def callBudget : TState → Nat
  | .start => 1
  | .needCall => 1
  | .needSet _ => 0
  | .stopped _ => 0

/-- A handler that always succeeds. -/
def demoHandlerOk : Handler where
  proto := demoMsg
  handle := fun _ _ => .ok ()

/-- A handler that always fails. -/
def demoHandlerFail : Handler where
  proto := demoMsg
  handle := fun _ _ => .error "boom"

/-- A body extractor that always yields one valid envelope. -/
def extractOk : String → Except Err Bytes :=
  fun _ => .ok (Marshal demoMsg [] "id-1" 5)

/-- A delete call that always succeeds. -/
def deleteOk : String → Except Err Unit :=
  fun _ => .ok ()

/-- A demonstration transport message. -/
def msg0 : SQSMessage where
  messageId := "mid-1"
  body := "body"
  receiptHandle := "rh-1"

/-! ## Shared helper lemmas -/

/-- For a one-character pattern, `replaceAll` is character-wise
substitution. -/
theorem replaceAll_single (a b : Char) (l : List Char) :
    replaceAll [a] [b] l = l.map (fun c => if c = a then b else c) := by
  induction l with
  | nil => simp [replaceAll]
  | cons c cs ih =>
    rw [replaceAll]
    by_cases hc : c = a
    · subst hc
      simp [List.isPrefixOf, ih]
    · have hb : (a == c) = false := by
        simp [Ne.symm hc]
      simp [List.isPrefixOf, hb, hc, ih]

/-- Strings with equal character data are equal. -/
theorem strData_inj (s t : String) (h : s.data = t.data) : s = t := by
  cases s; cases t; exact congrArg String.mk h

/-- A `queue:`-prefixed store key never equals a `topic:`-prefixed one. -/
theorem queueKey_ne_topicKey (a b : String) : ("queue:" ++ a) ≠ ("topic:" ++ b) := by
  intro h
  have h2 := congrArg String.data h
  rw [String.data_append, String.data_append] at h2
  have hq : "queue:".data = ['q', 'u', 'e', 'u', 'e', ':'] := rfl
  have ht : "topic:".data = ['t', 'o', 'p', 'i', 'c', ':'] := rfl
  rw [hq, ht] at h2
  simp [List.cons_append] at h2

/-- Looking a different key up is unaffected by an insert. -/
theorem lookup_cons_ne (k key w : String) (s : Store) (h : k ≠ key) :
    ((key, w) :: s).lookup k = s.lookup k := by
  have hb : (k == key) = false := by simp [h]
  simp [List.lookup, hb]

/-- Looking the inserted key up yields the inserted value. -/
theorem lookup_cons_self (key w : String) (s : Store) :
    ((key, w) :: s).lookup key = some w := by
  simp [List.lookup]

/-- `applyOpts` distributes over cons. -/
theorem applyOpts_cons (f : Metadata → Metadata) (fs : List (Metadata → Metadata))
    (md : Metadata) : applyOpts (f :: fs) md = applyOpts fs (f md) := rfl

/-- Overrides that only touch the correlation id leave the generated
metadata fields unchanged. -/
theorem applyOpts_preserves (optFns : List (Metadata → Metadata))
    (h : ∀ f ∈ optFns, preservesGenerated f) (md : Metadata) :
    (applyOpts optFns md).ID = md.ID ∧ (applyOpts optFns md).TypeName = md.TypeName ∧
    (applyOpts optFns md).Timestamp = md.Timestamp := by
  induction optFns generalizing md with
  | nil => simp [applyOpts]
  | cons f fs ih =>
    have hf := h f (by simp) md
    have hfs : ∀ g ∈ fs, preservesGenerated g := fun g hg => h g (by simp [hg])
    have hrec := ih hfs (f md)
    rw [applyOpts_cons]
    exact ⟨hrec.1.trans hf.1, hrec.2.1.trans hf.2.1, hrec.2.2.trans hf.2.2⟩

/-! ## Claim C1 -/

/-- C1: Round-trip law of the envelope codec. For every payload `m`, every
list of metadata overrides, fresh id and timestamp, unmarshalling the bytes
produced by `Marshal` into a prototype of `m`'s type succeeds and yields the
payload `m` together with the metadata obtained by applying the overrides to
the generated defaults. -/
theorem marshal_unmarshal_roundtrip (m proto : ProtoMsg)
    (optFns : List (Metadata → Metadata)) (freshID : String) (now : Int)
    (h : proto.fullName = m.fullName) :
    Unmarshal (Marshal m optFns freshID now) proto =
      .ok { Payload := m,
            md := applyOpts optFns
              { ID := freshID, TypeName := m.fullName, CorrelationID := "",
                Timestamp := now } } := by
  simp [Unmarshal, Marshal, wrap, unwrap, unmarshalTo, anypbNew, h]

/-- Witness for C1 at a concrete payload, override list, id and timestamp. -/
theorem marshal_unmarshal_roundtrip_witness :
    Unmarshal (Marshal demoMsg [WithCorrelationID "corr-1"] "id-1" 5) demoMsg =
      .ok { Payload := demoMsg,
            md := { ID := "id-1", TypeName := "my.package.MessageName",
                    CorrelationID := "corr-1", Timestamp := 5 } } := by
  have h := marshal_unmarshal_roundtrip demoMsg demoMsg [WithCorrelationID "corr-1"]
    "id-1" 5 rfl
  simpa [applyOpts, WithCorrelationID, demoMsg] using h

/-! ## Claim C9 (corrected) -/

/-- C9 counterexample: the claim quantifies over every list of metadata
override functions, but overrides run after the defaults are generated, so an
override that clears the ID makes the encoded envelope carry an empty ID even
though the freshly generated uuid is non-empty. -/
theorem wrap_id_counterexample :
    ¬ (∀ (optFns : List (Metadata → Metadata)) (freshID : String) (now : Int),
        freshID ≠ "" → (wrap demoMsg optFns freshID now).id ≠ "") := by
  intro hcl
  exact hcl [fun md => { md with ID := "" }] "id-1" 0 (by decide) rfl

/-- C9 (amended): for every payload and every sequence of overrides that
modify only the CorrelationID (leaving the generated ID, Type and Timestamp
fields alone, as `WithCorrelationID` does), the encoded envelope carries the
freshly generated non-empty ID and the generation-time UTC timestamp, its
Type equals the payload's fully-qualified protobuf type name, and
CorrelationID is the empty string unless an override sets it. -/
theorem wrap_metadata_invariant (m : ProtoMsg) (optFns : List (Metadata → Metadata))
    (freshID : String) (now : Int)
    (h : ∀ f ∈ optFns, preservesGenerated f) (hid : freshID ≠ "") :
    (wrap m optFns freshID now).id = freshID ∧
    (wrap m optFns freshID now).id ≠ "" ∧
    (wrap m optFns freshID now).typeName = m.fullName ∧
    (wrap m optFns freshID now).timestamp = now ∧
    (wrap m optFns freshID now).correlationId =
      (applyOpts optFns
        { ID := freshID, TypeName := m.fullName, CorrelationID := "",
          Timestamp := now }).CorrelationID ∧
    (optFns = [] → (wrap m optFns freshID now).correlationId = "") := by
  obtain ⟨h1, h2, h3⟩ := applyOpts_preserves optFns h
    { ID := freshID, TypeName := m.fullName, CorrelationID := "", Timestamp := now }
  refine ⟨h1, ?_, h2, h3, rfl, ?_⟩
  · rw [show (wrap m optFns freshID now).id =
      (applyOpts optFns
        { ID := freshID, TypeName := m.fullName, CorrelationID := "",
          Timestamp := now }).ID from rfl, h1]
    exact hid
  · intro he
    subst he
    rfl

/-- Witness for the amended C9 with the `WithCorrelationID` override. -/
theorem wrap_metadata_invariant_witness :
    (wrap demoMsg [WithCorrelationID "corr-1"] "id-1" 5).id = "id-1" ∧
    (wrap demoMsg [WithCorrelationID "corr-1"] "id-1" 5).id ≠ "" ∧
    (wrap demoMsg [WithCorrelationID "corr-1"] "id-1" 5).typeName =
      "my.package.MessageName" ∧
    (wrap demoMsg [WithCorrelationID "corr-1"] "id-1" 5).timestamp = 5 ∧
    (wrap demoMsg [WithCorrelationID "corr-1"] "id-1" 5).correlationId = "corr-1" := by
  have hpres : ∀ f ∈ [WithCorrelationID "corr-1"], preservesGenerated f := by
    intro f hf
    rw [List.mem_singleton] at hf
    subst hf
    intro md
    simp [WithCorrelationID]
  have h := wrap_metadata_invariant demoMsg [WithCorrelationID "corr-1"] "id-1" 5
    hpres (by decide)
  refine ⟨h.1, h.2.1, h.2.2.1, h.2.2.2.1, ?_⟩
  rw [h.2.2.2.2.1]
  rfl

/-! ## Claim C10 -/

/-- C10: `MessageName` returns the fully-qualified protobuf type name with
every `.` replaced by `-` (e.g. `my.package.MessageName` becomes
`my-package-MessageName`), and under the default registry options the topic
and queue names equal that string while the error-queue name appends
`_error`. -/
theorem messageName_hyphenation_and_defaults :
    (∀ m : ProtoMsg, (MessageName m).data =
        m.fullName.data.map (fun c => if c = '.' then '-' else c)) ∧
    MessageName demoMsg = "my-package-MessageName" ∧
    (∀ m, defaultRegistryOptions.topicNameFn m = MessageName m) ∧
    (∀ m, defaultRegistryOptions.queueNameFn m = MessageName m) ∧
    (∀ m, defaultRegistryOptions.errorNameFn m = MessageName m ++ "_error") := by
  have hmap : ∀ m : ProtoMsg, (MessageName m).data =
      m.fullName.data.map (fun c => if c = '.' then '-' else c) := by
    intro m
    simp [MessageName, replaceAll_single]
  refine ⟨hmap, ?_, fun _ => rfl, fun _ => rfl, fun _ => rfl⟩
  apply strData_inj
  rw [hmap demoMsg]
  decide

/-! ## Claim C7 -/

/-- C7: with `WithPrefixNaming(stage, service)` the topic name is
`{stage}-{typeName}`, the queue name `{stage}-{service}-{typeName}` and the
error-queue name `{stage}-{service}-{typeName}_error` (where `typeName` is
the hyphenated `MessageName`); for a fixed stage, registries with distinct
services share the topic name for a payload type but have distinct queue
names for it. -/
theorem prefixNaming_convention (stage s1 s2 : String) (m : ProtoMsg) (h : s1 ≠ s2) :
    (WithPrefixNaming stage s1 defaultRegistryOptions).topicNameFn m
        = stage ++ "-" ++ MessageName m ∧
    (WithPrefixNaming stage s1 defaultRegistryOptions).queueNameFn m
        = stage ++ "-" ++ s1 ++ "-" ++ MessageName m ∧
    (WithPrefixNaming stage s1 defaultRegistryOptions).errorNameFn m
        = stage ++ "-" ++ s1 ++ "-" ++ MessageName m ++ "_error" ∧
    (WithPrefixNaming stage s1 defaultRegistryOptions).topicNameFn m
        = (WithPrefixNaming stage s2 defaultRegistryOptions).topicNameFn m ∧
    (WithPrefixNaming stage s1 defaultRegistryOptions).queueNameFn m
        ≠ (WithPrefixNaming stage s2 defaultRegistryOptions).queueNameFn m := by
  refine ⟨rfl, rfl, rfl, rfl, ?_⟩
  intro he
  apply h
  have hd := congrArg String.data he
  simp only [WithPrefixNaming, String.data_append, List.append_assoc] at hd
  have h1 := List.append_cancel_left hd
  have h2 := List.append_cancel_left h1
  have h3 := List.append_cancel_right h2
  exact strData_inj s1 s2 h3

/-- Witness for C7 at stage `dev`, services `a` and `b`, and the
demonstration payload type. -/
theorem prefixNaming_convention_witness :
    (WithPrefixNaming "dev" "a" defaultRegistryOptions).queueNameFn demoMsg
        = "dev-a-my-package-MessageName" ∧
    (WithPrefixNaming "dev" "a" defaultRegistryOptions).topicNameFn demoMsg
        = (WithPrefixNaming "dev" "b" defaultRegistryOptions).topicNameFn demoMsg ∧
    (WithPrefixNaming "dev" "a" defaultRegistryOptions).queueNameFn demoMsg
        ≠ (WithPrefixNaming "dev" "b" defaultRegistryOptions).queueNameFn demoMsg := by
  have h := prefixNaming_convention "dev" "a" "b" demoMsg (by decide)
  refine ⟨?_, h.2.2.2.1, h.2.2.2.2⟩
  rw [h.2.1]
  apply strData_inj
  simp only [String.data_append, MessageName, demoMsg, replaceAll_single]
  decide

/-! ## Claim C6 (corrected) -/

/-- C6 counterexample: `InMemoryStore.getOrSet` locks the `get` and the `set`
individually but not across the check-then-set, so under the interleaving
check1, check2, call1, set1, call2, set2 both first-time resolutions of the
key miss the cache and both invoke the provisioning function: two calls in
total, refuting "at most one provisioning call in total". -/
theorem store_concurrent_collapse_counterexample :
    ¬ (∀ sched : List Bool, totalCalls "topic:T" (.ok "a") (.ok "a") sched [] ≤ 1) := by
  intro hcl
  have h2 := hcl [true, false, true, true, false, false]
  have h3 : totalCalls "topic:T" (.ok "a") (.ok "a")
      [true, false, true, true, false, false] [] = 2 := by decide
  rw [h3] at h2
  exact absurd h2 (by decide)

/-- Each step of a thread spends its remaining provisioning-call budget: a
provisioning call is only made when leaving the `needCall` state, which is
never re-entered. -/
theorem stepThread_budget (key : String) (fnRes : Except Err String) (s : Store)
    (t : TState) :
    (stepThread key fnRes s t).2.2 + callBudget (stepThread key fnRes s t).1 ≤
      callBudget t := by
  cases t with
  | start =>
    cases hl : s.lookup key <;> simp [stepThread, callBudget, hl]
  | needCall =>
    cases fnRes <;> simp [stepThread, callBudget]
  | needSet v => simp [stepThread, callBudget]
  | stopped r => simp [stepThread, callBudget]

/-- Invariant: along any schedule, each thread's final call count is bounded
by its current count plus its remaining budget. -/
theorem runSched_calls_le (key : String) (fn1 fn2 : Except Err String)
    (sched : List Bool) :
    ∀ (s : Store) (t1 t2 : TState) (c1 c2 : Nat),
    (runSched key fn1 fn2 sched s t1 t2 c1 c2).2.2.2.1 ≤ c1 + callBudget t1 ∧
    (runSched key fn1 fn2 sched s t1 t2 c1 c2).2.2.2.2 ≤ c2 + callBudget t2 := by
  induction sched with
  | nil =>
    intro s t1 t2 c1 c2
    exact ⟨Nat.le_add_right c1 _, Nat.le_add_right c2 _⟩
  | cons b rest ih =>
    intro s t1 t2 c1 c2
    cases b with
    | true =>
      have hst := stepThread_budget key fn1 s t1
      rcases hstep : stepThread key fn1 s t1 with ⟨t1n, sn, d⟩
      rw [hstep] at hst
      simp only at hst
      have hrec := ih sn t1n t2 (c1 + d) c2
      constructor
      · calc (runSched key fn1 fn2 (true :: rest) s t1 t2 c1 c2).2.2.2.1
            = (runSched key fn1 fn2 rest sn t1n t2 (c1 + d) c2).2.2.2.1 := by
              simp [runSched, hstep]
          _ ≤ (c1 + d) + callBudget t1n := hrec.1
          _ ≤ c1 + callBudget t1 := by omega
      · calc (runSched key fn1 fn2 (true :: rest) s t1 t2 c1 c2).2.2.2.2
            = (runSched key fn1 fn2 rest sn t1n t2 (c1 + d) c2).2.2.2.2 := by
              simp [runSched, hstep]
          _ ≤ c2 + callBudget t2 := hrec.2
    | false =>
      have hst := stepThread_budget key fn2 s t2
      rcases hstep : stepThread key fn2 s t2 with ⟨t2n, sn, d⟩
      rw [hstep] at hst
      simp only at hst
      have hrec := ih sn t1 t2n c1 (c2 + d)
      constructor
      · calc (runSched key fn1 fn2 (false :: rest) s t1 t2 c1 c2).2.2.2.1
            = (runSched key fn1 fn2 rest sn t1 t2n c1 (c2 + d)).2.2.2.1 := by
              simp [runSched, hstep]
          _ ≤ c1 + callBudget t1 := hrec.1
      · calc (runSched key fn1 fn2 (false :: rest) s t1 t2 c1 c2).2.2.2.2
            = (runSched key fn1 fn2 rest sn t1 t2n c1 (c2 + d)).2.2.2.2 := by
              simp [runSched, hstep]
          _ ≤ (c2 + d) + callBudget t2n := hrec.2
          _ ≤ c2 + callBudget t2 := by omega

/-- C6 (amended): the in-memory store serializes its individual `get` and
`set` steps but not the whole check-then-call-then-set sequence, so two
concurrent first-time resolutions of the same key may each invoke the
provisioning function: under every interleaving each caller performs at most
one provisioning call, hence at most two calls in total (not at most one). -/
theorem store_concurrent_per_caller_bound (key : String) (fn1 fn2 : Except Err String)
    (sched : List Bool) (s : Store) :
    (runSched key fn1 fn2 sched s .start .start 0 0).2.2.2.1 ≤ 1 ∧
    (runSched key fn1 fn2 sched s .start .start 0 0).2.2.2.2 ≤ 1 ∧
    totalCalls key fn1 fn2 sched s ≤ 2 := by
  have h := runSched_calls_le key fn1 fn2 sched s .start .start 0 0
  simp only [callBudget] at h
  refine ⟨by omega, by omega, ?_⟩
  have ht : totalCalls key fn1 fn2 sched s =
      (runSched key fn1 fn2 sched s .start .start 0 0).2.2.2.1 +
      (runSched key fn1 fn2 sched s .start .start 0 0).2.2.2.2 := rfl
  rw [ht]
  omega

/-! ## `getOrSet` lemmas shared by the registry claims -/

/-- A cache hit returns the cached value with no provisioning call. -/
theorem getOrSet_hit (s : Store) (key : String)
    (fn : Unit → Except Err String × List BrokerCall) (v : String)
    (h : s.lookup key = some v) :
    getOrSet s key fn = (.ok v, s, []) := by
  simp [getOrSet, h]

/-- After a successful `getOrSet` the key maps to the returned value, and the
store either was untouched or gained exactly that binding. -/
theorem getOrSet_ok_lookup (s : Store) (key : String)
    (fn : Unit → Except Err String × List BrokerCall) (v : String) (s1 : Store)
    (tr : List BrokerCall) (h : getOrSet s key fn = (.ok v, s1, tr)) :
    s1.lookup key = some v ∧ (s1 = s ∨ s1 = (key, v) :: s) := by
  unfold getOrSet at h
  cases hl : s.lookup key with
  | some w =>
    rw [hl] at h
    simp only [Prod.mk.injEq, Except.ok.injEq] at h
    obtain ⟨hv, hs, -⟩ := h
    subst hv hs
    exact ⟨hl, Or.inl rfl⟩
  | none =>
    rw [hl] at h
    rcases hf : fn () with ⟨r, trf⟩
    rw [hf] at h
    cases r with
    | error e => simp at h
    | ok w =>
      simp only [Prod.mk.injEq, Except.ok.injEq] at h
      obtain ⟨hv, hs, -⟩ := h
      subst hv hs
      exact ⟨lookup_cons_self key _ s, Or.inr rfl⟩

/-- A failed `getOrSet` leaves the store unchanged, reports the provisioning
error, and records that the key was absent. -/
theorem getOrSet_error (s : Store) (key : String)
    (fn : Unit → Except Err String × List BrokerCall) (e : Err) (s1 : Store)
    (tr : List BrokerCall) (h : getOrSet s key fn = (.error e, s1, tr)) :
    s1 = s ∧ s.lookup key = none ∧ fn () = (.error e, tr) := by
  unfold getOrSet at h
  cases hl : s.lookup key with
  | some w => rw [hl] at h; simp at h
  | none =>
    rw [hl] at h
    rcases hf : fn () with ⟨r, trf⟩
    rw [hf] at h
    cases r with
    | error ef =>
      simp only [Prod.mk.injEq, Except.error.injEq] at h
      obtain ⟨he, hs, htr⟩ := h
      subst he hs htr
      exact ⟨rfl, rfl, rfl⟩
    | ok w => simp at h

/-- The body of `Registry.QueueURL`, with its let-bindings expanded. -/
theorem Registry.QueueURL_def (bk : Broker) (o : RegistryOptions) (m : ProtoMsg)
    (s : Store) :
    Registry.QueueURL bk o m s =
      match getOrSet s ("topic:" ++ o.topicNameFn m)
          (fun _ => Service.EnsureTopic bk (o.topicNameFn m)) with
      | (.error e, sA, trA) => (.error e, sA, trA)
      | (.ok ta, sA, trA) =>
        match getOrSet sA ("queue:" ++ o.queueNameFn m)
            (fun _ => Service.EnsureSubscription bk ta (o.queueNameFn m)
              (o.errorNameFn m) o.maxReceiveCount) with
        | (r, s2, tr2) => (r, s2, trA ++ tr2) := rfl

/-- When both the topic and the queue key are cached, `QueueURL` returns the
cached address with no broker calls and an unchanged store. -/
theorem QueueURL_hits (bk : Broker) (o : RegistryOptions) (m : ProtoMsg) (s : Store)
    (ta v : String)
    (hT : s.lookup ("topic:" ++ o.topicNameFn m) = some ta)
    (hQ : s.lookup ("queue:" ++ o.queueNameFn m) = some v) :
    Registry.QueueURL bk o m s = (.ok v, s, []) := by
  simp [Registry.QueueURL, getOrSet, hT, hQ]

/-- On a miss, `getOrSet` invokes the provisioning function once and issues
exactly its trace. -/
theorem getOrSet_miss_trace (s : Store) (key : String)
    (fn : Unit → Except Err String × List BrokerCall)
    (h : s.lookup key = none) :
    (getOrSet s key fn).2.2 = (fn ()).2 := by
  unfold getOrSet
  rw [h]
  rcases hf : fn () with ⟨r, trf⟩
  cases r <;> simp

/-! ## Claim C2 -/

/-- C2: idempotent resolution. A first successful `TopicARN` on an uncached
key issues exactly the `EnsureTopic` provisioning sequence; and after any
successful `TopicARN` (resp. `QueueURL`) a second sequential call returns the
same cached address with zero broker calls. -/
theorem registry_idempotent_resolution (bk : Broker) (o : RegistryOptions)
    (m : ProtoMsg) (s : Store) :
    (s.lookup ("topic:" ++ o.topicNameFn m) = none →
      (Registry.TopicARN bk o m s).2.2 = (Service.EnsureTopic bk (o.topicNameFn m)).2) ∧
    (∀ v s1 tr1, Registry.TopicARN bk o m s = (.ok v, s1, tr1) →
      Registry.TopicARN bk o m s1 = (.ok v, s1, [])) ∧
    (∀ v s1 tr1, Registry.QueueURL bk o m s = (.ok v, s1, tr1) →
      Registry.QueueURL bk o m s1 = (.ok v, s1, [])) := by
  refine ⟨?_, ?_, ?_⟩
  · intro hnone
    exact getOrSet_miss_trace s ("topic:" ++ o.topicNameFn m) _ hnone
  · intro v s1 tr1 h
    unfold Registry.TopicARN at h ⊢
    have hl := getOrSet_ok_lookup _ _ _ _ _ _ h
    exact getOrSet_hit s1 _ _ v hl.1
  · intro v s1 tr1 h
    rw [Registry.QueueURL_def] at h
    split at h
    · simp at h
    · rename_i ta sA trA hT
      split at h
      rename_i rQ sB trB hQ
      simp only [Prod.mk.injEq] at h
      obtain ⟨hr, hs, -⟩ := h
      subst hs
      cases rQ with
      | error e => simp at hr
      | ok w =>
        have hvw : w = v := by
          simpa using hr
        subst hvw
        have hTl := getOrSet_ok_lookup _ _ _ _ _ _ hT
        have hQl := getOrSet_ok_lookup _ _ _ _ _ _ hQ
        have hTopicInS1 : sB.lookup ("topic:" ++ o.topicNameFn m) = some ta := by
          rcases hQl.2 with hB | hB
          · rw [hB]; exact hTl.1
          · rw [hB, lookup_cons_ne _ _ _ _
              (Ne.symm (queueKey_ne_topicKey (o.queueNameFn m) (o.topicNameFn m)))]
            exact hTl.1
        exact QueueURL_hits bk o m sB ta w hTopicInS1 hQl.1

/-- Witness for C2: after a cold `QueueURL` resolution the second call
returns the cached address from the unchanged store with zero broker
calls. -/
theorem registry_idempotent_resolution_witness :
    Registry.QueueURL demoBroker demoOpts demoMsg
        [("queue:Q", "https://sqs/Q"), ("topic:T", "arn:aws:sns:eu:111:T")] =
      (.ok "https://sqs/Q",
       [("queue:Q", "https://sqs/Q"), ("topic:T", "arn:aws:sns:eu:111:T")], []) :=
  (registry_idempotent_resolution demoBroker demoOpts demoMsg []).2.2
    "https://sqs/Q"
    [("queue:Q", "https://sqs/Q"), ("topic:T", "arn:aws:sns:eu:111:T")]
    [.createTopic "T",
     .setTopicAttributes "arn:aws:sns:eu:111:T"
       { topicARN := "arn:aws:sns:eu:111:T", accountID := "111" },
     .createQueue "Q_error", .getQueueAttributes "https://sqs/Q_error",
     .createQueue "Q", .getQueueAttributes "https://sqs/Q",
     .setQueueAttributes "https://sqs/Q"
       { topicARN := "arn:aws:sns:eu:111:T", queueARN := "arn:q:https://sqs/Q" }
       { deadLetterTargetARN := "arn:q:https://sqs/Q_error", maxReceiveCount := 5 },
     .subscribeQueue "arn:aws:sns:eu:111:T" "arn:q:https://sqs/Q"]
    rfl

/-! ## Claim C4 -/

/-- C4: cold queue resolution. With an empty store and a broker that answers
every call, `QueueURL` issues topic create, topic set-attributes, error-queue
create, error-queue attribute read, main-queue create, main-queue attribute
read, main-queue set-attributes (access policy and redrive policy), topic
subscribe, in exactly that order, and caches the returned main-queue address
under `queue:<queueName>`. -/
theorem queueURL_cold_call_order (bk : Broker) (o : RegistryOptions) (m : ProtoMsg)
    (ta aid equ eqa qu qa sarn : String)
    (h1 : bk.createTopic (o.topicNameFn m) = .ok ta)
    (h2 : accountIDFromARN ta = .ok aid)
    (h3 : bk.setTopicAttributes ta { topicARN := ta, accountID := aid } = .ok ())
    (h4 : bk.createQueue (o.errorNameFn m) = .ok equ)
    (h5 : bk.getQueueAttributes equ = .ok eqa)
    (h6 : bk.createQueue (o.queueNameFn m) = .ok qu)
    (h7 : bk.getQueueAttributes qu = .ok qa)
    (h8 : bk.setQueueAttributes qu { topicARN := ta, queueARN := qa }
            { deadLetterTargetARN := eqa, maxReceiveCount := o.maxReceiveCount } = .ok ())
    (h9 : bk.subscribeQueue ta qa = .ok sarn) :
    Registry.QueueURL bk o m [] =
      (.ok qu,
       [("queue:" ++ o.queueNameFn m, qu), ("topic:" ++ o.topicNameFn m, ta)],
       [.createTopic (o.topicNameFn m),
        .setTopicAttributes ta { topicARN := ta, accountID := aid },
        .createQueue (o.errorNameFn m), .getQueueAttributes equ,
        .createQueue (o.queueNameFn m), .getQueueAttributes qu,
        .setQueueAttributes qu { topicARN := ta, queueARN := qa }
          { deadLetterTargetARN := eqa, maxReceiveCount := o.maxReceiveCount },
        .subscribeQueue ta qa]) := by
  have hT : Service.EnsureTopic bk (o.topicNameFn m) =
      (.ok ta, [.createTopic (o.topicNameFn m),
                .setTopicAttributes ta { topicARN := ta, accountID := aid }]) := by
    simp [Service.EnsureTopic, SNSAccessPolicy, h1, h2, h3]
  have hS : Service.EnsureSubscription bk ta (o.queueNameFn m) (o.errorNameFn m)
      o.maxReceiveCount =
      (.ok qu, [.createQueue (o.errorNameFn m), .getQueueAttributes equ,
                .createQueue (o.queueNameFn m), .getQueueAttributes qu,
                .setQueueAttributes qu { topicARN := ta, queueARN := qa }
                  { deadLetterTargetARN := eqa, maxReceiveCount := o.maxReceiveCount },
                .subscribeQueue ta qa]) := by
    simp [Service.EnsureSubscription, Service.createQueue, SQSAccessPolicy,
      SQSRedrivePolicy, h4, h5, h6, h7, h8, h9]
  have hb : (("queue:" ++ o.queueNameFn m) == ("topic:" ++ o.topicNameFn m)) = false := by
    simp [queueKey_ne_topicKey (o.queueNameFn m) (o.topicNameFn m)]
  simp [Registry.QueueURL, getOrSet, List.lookup, hb, hT, hS]

/-- Witness for C4 with the demonstration broker, constant naming options and
an empty store. -/
theorem queueURL_cold_call_order_witness :
    Registry.QueueURL demoBroker demoOpts demoMsg [] =
      (.ok "https://sqs/Q",
       [("queue:Q", "https://sqs/Q"), ("topic:T", "arn:aws:sns:eu:111:T")],
       [.createTopic "T",
        .setTopicAttributes "arn:aws:sns:eu:111:T"
          { topicARN := "arn:aws:sns:eu:111:T", accountID := "111" },
        .createQueue "Q_error", .getQueueAttributes "https://sqs/Q_error",
        .createQueue "Q", .getQueueAttributes "https://sqs/Q",
        .setQueueAttributes "https://sqs/Q"
          { topicARN := "arn:aws:sns:eu:111:T", queueARN := "arn:q:https://sqs/Q" }
          { deadLetterTargetARN := "arn:q:https://sqs/Q_error", maxReceiveCount := 5 },
        .subscribeQueue "arn:aws:sns:eu:111:T" "arn:q:https://sqs/Q"]) :=
  queueURL_cold_call_order demoBroker demoOpts demoMsg
    "arn:aws:sns:eu:111:T" "111" "https://sqs/Q_error" "arn:q:https://sqs/Q_error"
    "https://sqs/Q" "arn:q:https://sqs/Q" "arn:sub:1"
    rfl rfl rfl rfl rfl rfl rfl rfl rfl

/-! ## Claim C5 -/

/-- C5: atomicity of resolution failure. If topic provisioning fails,
`TopicARN` returns the error with the store unchanged (nothing cached), so a
subsequent call re-runs the same provisioning; if queue provisioning fails
after a cold topic resolution, `QueueURL` returns the error, the failed queue
resource is not cached (only the topic address the broker itself persisted
is), and a subsequent call re-issues the queue provisioning sequence from
scratch. -/
theorem resolution_failure_atomicity (bk : Broker) (o : RegistryOptions)
    (m : ProtoMsg) (s : Store) (e : Err) :
    (∀ tr, s.lookup ("topic:" ++ o.topicNameFn m) = none →
      Service.EnsureTopic bk (o.topicNameFn m) = (.error e, tr) →
      Registry.TopicARN bk o m s = (.error e, s, tr)) ∧
    (∀ ta trT trQ, s.lookup ("topic:" ++ o.topicNameFn m) = none →
      s.lookup ("queue:" ++ o.queueNameFn m) = none →
      Service.EnsureTopic bk (o.topicNameFn m) = (.ok ta, trT) →
      Service.EnsureSubscription bk ta (o.queueNameFn m) (o.errorNameFn m)
        o.maxReceiveCount = (.error e, trQ) →
      Registry.QueueURL bk o m s =
        (.error e, ("topic:" ++ o.topicNameFn m, ta) :: s, trT ++ trQ) ∧
      (("topic:" ++ o.topicNameFn m, ta) :: s).lookup ("queue:" ++ o.queueNameFn m)
        = none ∧
      Registry.QueueURL bk o m (("topic:" ++ o.topicNameFn m, ta) :: s) =
        (.error e, ("topic:" ++ o.topicNameFn m, ta) :: s, trQ)) := by
  constructor
  · intro tr hnone hfail
    simp [Registry.TopicARN, getOrSet, hnone, hfail]
  · intro ta trT trQ hTnone hQnone hT hS
    have hb : (("queue:" ++ o.queueNameFn m) == ("topic:" ++ o.topicNameFn m)) = false := by
      simp [queueKey_ne_topicKey (o.queueNameFn m) (o.topicNameFn m)]
    have hQcons : (("topic:" ++ o.topicNameFn m, ta) :: s).lookup
        ("queue:" ++ o.queueNameFn m) = none := by
      rw [lookup_cons_ne _ _ _ _
        (queueKey_ne_topicKey (o.queueNameFn m) (o.topicNameFn m))]
      exact hQnone
    refine ⟨?_, hQcons, ?_⟩
    · simp [Registry.QueueURL, getOrSet, List.lookup, hb, hTnone, hQnone, hT, hS]
    · simp [Registry.QueueURL, getOrSet, List.lookup, hb, hQnone, hT, hS]

/-- Witness for C5: a broker failing at topic creation leaves the store
untouched, and a broker failing at queue creation caches only the topic. -/
theorem resolution_failure_atomicity_witness :
    Registry.TopicARN demoBrokerTopicFail demoOpts demoMsg [] =
      (.error "topic error", [], [.createTopic "T"]) ∧
    Registry.QueueURL demoBrokerQueueFail demoOpts demoMsg [] =
      (.error "queue error", [("topic:T", "arn:aws:sns:eu:111:T")],
       [.createTopic "T",
        .setTopicAttributes "arn:aws:sns:eu:111:T"
          { topicARN := "arn:aws:sns:eu:111:T", accountID := "111" },
        .createQueue "Q_error"]) ∧
    [("topic:T", "arn:aws:sns:eu:111:T")].lookup "queue:Q" = none ∧
    Registry.QueueURL demoBrokerQueueFail demoOpts demoMsg
        [("topic:T", "arn:aws:sns:eu:111:T")] =
      (.error "queue error", [("topic:T", "arn:aws:sns:eu:111:T")],
       [.createQueue "Q_error"]) := by
  have h1 := (resolution_failure_atomicity demoBrokerTopicFail demoOpts demoMsg []
    "topic error").1 [.createTopic "T"] rfl rfl
  have h2 := (resolution_failure_atomicity demoBrokerQueueFail demoOpts demoMsg []
    "queue error").2 "arn:aws:sns:eu:111:T"
    [.createTopic "T",
     .setTopicAttributes "arn:aws:sns:eu:111:T"
       { topicARN := "arn:aws:sns:eu:111:T", accountID := "111" }]
    [.createQueue "Q_error"] rfl rfl rfl rfl
  exact ⟨h1, h2.1, h2.2.1, h2.2.2⟩

/-! ## Claim C3 -/

/-- C3: acknowledge iff success. For a received message whose body decodes,
a handler failure leads to no delete call and exactly that one error reaching
the sink; a handler success leads to exactly one delete call for the
message's receipt handle, issued strictly after the handler returned (the
event list places the delete after the handler return), and nothing reaches
the sink when the delete succeeds. -/
theorem handler_ack_contract (extractB64 : String → Except Err Bytes)
    (deleteRes : String → Except Err Unit) (h : Handler) (q : String)
    (m : SQSMessage) (b : Bytes) (dm : Message)
    (hb : extractB64 m.body = .ok b) (hu : Unmarshal b h.proto = .ok dm) :
    (∀ e, h.handle dm.Payload dm.md = .error e →
      handleMessage extractB64 deleteRes h q m = (.error e, [.handlerReturn m.messageId]) ∧
      sinkOf (handleMessage extractB64 deleteRes h q m).1 = [e]) ∧
    (h.handle dm.Payload dm.md = .ok () →
      (handleMessage extractB64 deleteRes h q m).2 =
        [.handlerReturn m.messageId, .deleteCall q m.receiptHandle] ∧
      (deleteRes m.receiptHandle = .ok () →
        handleMessage extractB64 deleteRes h q m =
          (.ok (), [.handlerReturn m.messageId, .deleteCall q m.receiptHandle]) ∧
        sinkOf (handleMessage extractB64 deleteRes h q m).1 = [])) := by
  constructor
  · intro e he
    have hm : handleMessage extractB64 deleteRes h q m =
        (.error e, [.handlerReturn m.messageId]) := by
      simp [handleMessage, hb, hu, he]
    exact ⟨hm, by rw [hm]; rfl⟩
  · intro hok
    cases hd : deleteRes m.receiptHandle with
    | error ed =>
      have hm : handleMessage extractB64 deleteRes h q m =
          (.error ed, [.handlerReturn m.messageId, .deleteCall q m.receiptHandle]) := by
        simp [handleMessage, hb, hu, hok, hd]
      exact ⟨by rw [hm], fun hcontra => absurd hcontra (by simp)⟩
    | ok u =>
      have hm : handleMessage extractB64 deleteRes h q m =
          (.ok (), [.handlerReturn m.messageId, .deleteCall q m.receiptHandle]) := by
        simp [handleMessage, hb, hu, hok, hd]
      exact ⟨by rw [hm], fun _ => ⟨hm, by rw [hm]; rfl⟩⟩

/-- Witness for C3: the failing handler sinks exactly its error with no
delete call; the succeeding handler produces exactly one delete call after
the handler return. -/
theorem handler_ack_contract_witness :
    handleMessage extractOk deleteOk demoHandlerFail "qurl" msg0 =
      (.error "boom", [.handlerReturn "mid-1"]) ∧
    handleMessage extractOk deleteOk demoHandlerOk "qurl" msg0 =
      (.ok (), [.handlerReturn "mid-1", .deleteCall "qurl" "rh-1"]) := by
  have hfail := (handler_ack_contract extractOk deleteOk demoHandlerFail "qurl" msg0
    (Marshal demoMsg [] "id-1" 5)
    { Payload := demoMsg,
      md := { ID := "id-1", TypeName := "my.package.MessageName",
              CorrelationID := "", Timestamp := 5 } } rfl rfl).1 "boom" rfl
  have hok := ((handler_ack_contract extractOk deleteOk demoHandlerOk "qurl" msg0
    (Marshal demoMsg [] "id-1" 5)
    { Payload := demoMsg,
      md := { ID := "id-1", TypeName := "my.package.MessageName",
              CorrelationID := "", Timestamp := 5 } } rfl rfl).2 rfl).2 rfl
  exact ⟨hfail.1, hok.1⟩

/-! ## Claim C8 -/

/-- C8: Subscribe's synchronous error contract. `Subscribe` returns an error
exactly when the initial queue resolution fails, in which case no receive
call is issued and nothing reaches the sink; on successful resolution the
return value is nil regardless of the outcomes of the ticks — every
receive, decode, handler and delete error flows to the sink inside the loop
result, which is fully drained before `Subscribe` returns — and a receive
failure is sunk while polling continues with the remaining ticks. -/
theorem subscribe_error_contract (extractB64 : String → Except Err Bytes)
    (deleteRes : String → Except Err Unit) (h : Handler)
    (resolveRes : Except Err String) (ticks : List (Except Err (List SQSMessage))) :
    (∀ e, resolveRes = .error e →
      Subscribe extractB64 deleteRes h resolveRes ticks = (.error e, [], [])) ∧
    (∀ q, resolveRes = .ok q →
      (Subscribe extractB64 deleteRes h resolveRes ticks).1 = .ok () ∧
      (Subscribe extractB64 deleteRes h resolveRes ticks).2 =
        subscribeLoop extractB64 deleteRes h q ticks ∧
      (∀ e rest, ticks = .error e :: rest →
        (subscribeLoop extractB64 deleteRes h q ticks).1 =
          .receiveCall q :: (subscribeLoop extractB64 deleteRes h q rest).1 ∧
        (subscribeLoop extractB64 deleteRes h q ticks).2 =
          e :: (subscribeLoop extractB64 deleteRes h q rest).2)) := by
  constructor
  · intro e he
    subst he
    rfl
  · intro q hq
    subst hq
    refine ⟨rfl, rfl, ?_⟩
    intro e rest ht
    subst ht
    exact ⟨rfl, rfl⟩

/-- Witness for C8: a failed resolution is returned synchronously with no
polling; with a resolved queue the return value is nil and the receive error
plus the handler error are the exact sink contents. -/
theorem subscribe_error_contract_witness :
    Subscribe extractOk deleteOk demoHandlerFail (.error "no queue") [.ok [msg0]] =
      (.error "no queue", [], []) ∧
    (Subscribe extractOk deleteOk demoHandlerFail (.ok "qurl")
      [.error "recv fail", .ok [msg0]]).1 = .ok () ∧
    Subscribe extractOk deleteOk demoHandlerFail (.ok "qurl")
        [.error "recv fail", .ok [msg0]] =
      (.ok (), [.receiveCall "qurl", .receiveCall "qurl", .handlerReturn "mid-1"],
       ["recv fail", "boom"]) := by
  have h1 := (subscribe_error_contract extractOk deleteOk demoHandlerFail
    (.error "no queue") [.ok [msg0]]).1 "no queue" rfl
  have h2 := (subscribe_error_contract extractOk deleteOk demoHandlerFail
    (.ok "qurl") [.error "recv fail", .ok [msg0]]).2 "qurl" rfl
  exact ⟨h1, h2.1, rfl⟩

end Pram
